import Mathlib

/-!
Verification of `exr_reader.py` (channel-string parser, channel loader,
session exit) against its natural-language specification.

The parser `_parse_channel_string` is embedded as a step function over an
explicit state (the four local variables of the Python loop) folded over the
characters of the channel string.  The loader `_load_channels` is embedded
with the raster read primitive abstracted as a function, recording the list
of read calls it performs.  The session exit `__exit__` is embedded together
with a spec-modelled close primitive and `with`-statement dispatch.
-/

namespace ExrReader

/-- State of the parsing loop in `_parse_channel_string`
(src/exr_reader.py lines 130-133): the four local variables
`char_store`, `channel_selector`, `channel_names`, `channel_keys`. -/
structure ParseState where
  char_store : String
  channel_selector : String
  channel_names : List String
  channel_keys : List String
deriving DecidableEq

/-- The chain of mapping `if`s at src/exr_reader.py lines 137-154: each
recognized character overwrites `channel_selector` with its fixed selector
string; any other character leaves it unchanged. -/
def mapChar (sel : String) (char : Char) : String :=
  let sel := if char = 'c' then ".IndexOB.X" else sel
  let sel := if char = 'i' then ".IndexMA.X" else sel
  let sel := if char = 'r' then ".Combined.R" else sel
  let sel := if char = 'g' then ".Combined.G" else sel
  let sel := if char = 'b' then ".Combined.B" else sel
  let sel := if char = 'a' then ".Combined.A" else sel
  let sel := if char = 'd' then ".Depth.Z" else sel
  let sel := if char = 'n' then ".Normal" else sel
  let sel := if char = 'f' then ".Vector" else sel
  sel

/-- The component-appending `if`s at src/exr_reader.py lines 161-168:
`x`, `y`, `z`, `w` append `.X`, `.Y`, `.Z`, `.W` to the selector; any other
character leaves it unchanged. -/
def suffixAppend (sel : String) (char : Char) : String :=
  let sel := if char = 'x' then sel ++ ".X" else sel
  let sel := if char = 'y' then sel ++ ".Y" else sel
  let sel := if char = 'z' then sel ++ ".Z" else sel
  let sel := if char = 'w' then sel ++ ".W" else sel
  sel

/-- One iteration of the `for char in channel_string` loop
(src/exr_reader.py lines 135-179).  The mapping `if`s run first (they may
overwrite `channel_selector`), then the `if`/`elif` chain: characters `n`
and `f` (the string `two_char_expr_starts = 'nf'`, line 83) are stored as
the start of a two-character expression; otherwise a pending `char_store`
finishes a two-character expression (emitting selector and
`char_store + char` as key); otherwise a non-empty selector with no pending
store is emitted with the current character as key. -/
def parseStep (st : ParseState) (char : Char) : ParseState :=
  let sel := mapChar st.channel_selector char
  if char = 'n' ∨ char = 'f' then
    { st with channel_selector := sel, char_store := String.singleton char }
  else if st.char_store ≠ "" then
    { char_store := "", channel_selector := "",
      channel_names := st.channel_names ++ [suffixAppend sel char],
      channel_keys := st.channel_keys ++ [st.char_store ++ String.singleton char] }
  else if sel ≠ "" ∧ st.char_store = "" then
    { char_store := "", channel_selector := "",
      channel_names := st.channel_names ++ [sel],
      channel_keys := st.channel_keys ++ [String.singleton char] }
  else
    { st with channel_selector := sel }

/-- The whole loop of `_parse_channel_string`: fold `parseStep` over the
characters. -/
def parseLoop (st : ParseState) (chars : List Char) : ParseState :=
  chars.foldl parseStep st

/-- Initial state of the loop (src/exr_reader.py lines 130-133): all four
variables start empty. -/
def initState : ParseState :=
  { char_store := "", channel_selector := "", channel_names := [], channel_keys := [] }

/-- Core of `_parse_channel_string` on an explicit character list: run the
loop from the initial state, then build the channel map
(src/exr_reader.py line 181): prepend `view_layer_name` to every collected
selector and return it with the collected keys. -/
def parseChars (view_layer_name : String) (chars : List Char) :
    List String × List String :=
  let st := parseLoop initState chars
  (st.channel_names.map (fun c => view_layer_name ++ c), st.channel_keys)

/-- `_parse_channel_string` (src/exr_reader.py lines 120-182):
`self.view_layer_name` is passed explicitly, the channel string is iterated
character by character. -/
def _parse_channel_string (view_layer_name : String) (channel_string : String) :
    List String × List String :=
  parseChars view_layer_name channel_string.toList

/-- Membership test of a Python `dict` modelled as an association list:
`k in d` holds when some entry has key `k`. -/
def dictMember (d : List (String × α)) (k : String) : Bool :=
  d.any (fun p => p.1 == k)

/-- Python `d[k] = v` on a `dict` modelled as an association list: overwrite
the entry for `k` when present, otherwise append it. -/
def dictInsert (d : List (String × α)) (k : String) (v : α) : List (String × α) :=
  if dictMember d k then d.map (fun p => if p.1 == k then (k, v) else p)
  else d ++ [(k, v)]

/-- `_load_channels` (src/exr_reader.py lines 185-202).  `self.channels` is
passed in as `self_channels`; the raster read primitive
`self.inputfile.channels` is abstracted as the function `readChannels`;
the per-buffer conversion (`array('f', ...)` or the pluggable loader) is the
identity on the abstract buffer type `α`.  Returns the updated mapping
together with the list of read calls performed, so that "zero reads" is the
read-call list being empty.  Faithful to the source: the filter keeps the
channel NAMES `c` with `c not in self.channels` (line 193), and the kept
names are zipped against the UNfiltered `channel_keys` (line 198). -/
def _load_channels (self_channels : List (String × α))
    (readChannels : List String → List α)
    (channel_names channel_keys : List String) :
    List (String × α) × List (List String) :=
  let channel_names := channel_names.filter (fun c => ! dictMember self_channels c)
  if channel_names ≠ [] then
    let channels := readChannels channel_names
    ((channels.zip channel_keys).foldl
      (fun d p => dictInsert d p.2 p.1) self_channels,
     [channel_names])
  else (self_channels, [])

/-- The underlying raster file handle: all the embedding needs of
`OpenEXR.InputFile` is whether it has been closed. -/
structure InputFile where
  closed : Bool
deriving DecidableEq

/-- Modelled from the spec: `RasterHandle.close()` is an external library
primitive (`OpenEXR.InputFile.close`, not part of this repository); spec §6
declares it idempotent, so it is a total function (it never raises) that
marks the handle closed. -/
def InputFile.close (f : InputFile) : InputFile :=
  { f with closed := true }

/-- `__exit__` (src/exr_reader.py lines 114-117): unconditionally calls
`self.inputfile.close()`, whatever exception information (if any) caused the
scope exit. -/
def exitScope (f : InputFile) (exc_type : Option String) : InputFile :=
  let _ := exc_type
  f.close

/-- Modelled from the spec: Python `with`-statement dispatch (language
semantics, not repository code) — once the session scope is entered, the
body either returns normally or raises, and in both cases `__exit__` runs on
the handle before control leaves the scope. -/
def runSession (f : InputFile) (body : Except String Unit) :
    Except String Unit × InputFile :=
  match body with
  | Except.ok a => (Except.ok a, exitScope f none)
  | Except.error e => (Except.error e, exitScope f (some e))

/-- The `OpenEXRReader` dataclass (src/exr_reader.py lines 28-76) as far as
its constructor arguments and defaults go: `loader` defaults to `None`,
`resolution` to `(1080, 1920)`, `view_layer_name` to `'BAT_ViewLayer'`. -/
structure OpenEXRReader where
  filepath : String
  channel_string : String
  loader : Option Unit := none
  resolution : Nat × Nat := (1080, 1920)
  view_layer_name : String := "BAT_ViewLayer"

/-- Unfolding the loop one character at a time. -/
theorem parseLoop_cons (st : ParseState) (c : Char) (cs : List Char) :
    parseLoop st (c :: cs) = parseLoop (parseStep st c) cs := rfl

/-- The loop over a concatenation is the loop over the second part started
from the state reached after the first part. -/
theorem parseLoop_append (st : ParseState) (l₁ l₂ : List Char) :
    parseLoop st (l₁ ++ l₂) = parseLoop (parseLoop st l₁) l₂ := by
  simp [parseLoop, List.foldl_append]

/-- A one-character string is never empty. -/
theorem singleton_ne_empty (c : Char) : String.singleton c ≠ "" := by
  intro h
  have h2 := congrArg String.data h
  simp [String.singleton, String.push] at h2

/-- Character list of a string with one character pushed at the end. -/
theorem toList_push (s : String) (c : Char) : (s.push c).toList = s.toList ++ [c] := by
  cases s
  rfl

/-- Each loop iteration either leaves the collected names and keys unchanged,
or appends exactly one name and exactly one key. -/
theorem parseStep_emits (st : ParseState) (c : Char) :
    ((parseStep st c).channel_names = st.channel_names ∧
     (parseStep st c).channel_keys = st.channel_keys) ∨
    (∃ n k, (parseStep st c).channel_names = st.channel_names ++ [n] ∧
            (parseStep st c).channel_keys = st.channel_keys ++ [k]) := by
  unfold parseStep
  dsimp only
  split
  · exact Or.inl ⟨rfl, rfl⟩
  · split
    · exact Or.inr ⟨_, _, rfl, rfl⟩
    · split
      · exact Or.inr ⟨_, _, rfl, rfl⟩
      · exact Or.inl ⟨rfl, rfl⟩

/-- Processing a two-character-expression start (`n` or `f`) overwrites the
selector and the stored character, whatever the previous state was, and
emits nothing. -/
theorem parseStep_twoCharStart (st : ParseState) (p : Char) (hp : p = 'n' ∨ p = 'f') :
    parseStep st p =
      { st with channel_selector := mapChar "" p, char_store := String.singleton p } := by
  rcases hp with h | h <;> subst h <;>
    simp [parseStep, mapChar]

/-- One step preserves the loop invariant: whenever `char_store` is empty at
the end of an iteration, so is `channel_selector`. -/
theorem parseStep_inv (st : ParseState) (c : Char) :
    (parseStep st c).char_store = "" → (parseStep st c).channel_selector = "" := by
  unfold parseStep
  dsimp only
  split
  · intro hc
    exact absurd hc (singleton_ne_empty c)
  · split
    · intro _; rfl
    · split
      · intro _; rfl
      · intro hc
        simp only at hc ⊢
        rename_i h1 h2 h3
        push_neg at h3
        by_contra hne
        exact h3 hne hc

/-- Loop invariant of `_parse_channel_string`: in every state reachable from
the initial state, an empty `char_store` forces an empty `channel_selector`. -/
theorem parseLoop_inv (l : List Char) :
    (parseLoop initState l).char_store = "" →
    (parseLoop initState l).channel_selector = "" := by
  suffices h : ∀ st : ParseState, (st.char_store = "" → st.channel_selector = "") →
      ((parseLoop st l).char_store = "" → (parseLoop st l).channel_selector = "") by
    exact h initState (fun _ => rfl)
  induction l with
  | nil => exact fun st h => h
  | cons c cs ih =>
    intro st _
    rw [parseLoop_cons]
    exact ih _ (parseStep_inv st c)

/-- The loop keeps the collected name and key lists at equal length. -/
theorem parseLoop_length (l : List Char) :
    ∀ st : ParseState, st.channel_names.length = st.channel_keys.length →
    (parseLoop st l).channel_names.length = (parseLoop st l).channel_keys.length := by
  induction l with
  | nil => exact fun st h => h
  | cons c cs ih =>
    intro st h
    rw [parseLoop_cons]
    apply ih
    rcases parseStep_emits st c with ⟨h1, h2⟩ | ⟨n, k, h1, h2⟩ <;>
      simp [h1, h2, h]

/-- C1 (amended): a single-character code in `{c,i,r,g,b,a,d}` is resolved
in the very iteration that reads it — no following character is needed —
because the selector-mapping `if`s (lines 137-150) run before the emit
branch (lines 175-179) of the same iteration.  The parser emits exactly one
(layerPath, key) pair for the code; the key is the code character itself
when no two-character expression is pending, and `char_store + code` when
one is. -/
theorem c1_theorem (st : ParseState) (c : Char)
    (hc : c = 'c' ∨ c = 'i' ∨ c = 'r' ∨ c = 'g' ∨ c = 'b' ∨ c = 'a' ∨ c = 'd') :
    (st.char_store = "" →
      parseStep st c = {
        char_store := "", channel_selector := "",
        channel_names := st.channel_names ++ [mapChar "" c],
        channel_keys := st.channel_keys ++ [String.singleton c] }) ∧
    (st.char_store ≠ "" →
      parseStep st c = {
        char_store := "", channel_selector := "",
        channel_names := st.channel_names ++ [mapChar "" c],
        channel_keys := st.channel_keys ++ [st.char_store ++ String.singleton c] }) := by
  constructor
  · intro h1
    rcases hc with h | h | h | h | h | h | h <;> subst h <;>
      simp [parseStep, mapChar, suffixAppend, h1]
  · intro h1
    rcases hc with h | h | h | h | h | h | h <;> subst h <;>
      simp [parseStep, mapChar, suffixAppend, h1]

/-- C1 witness: the code `r`, read from the initial state, immediately emits
`(.Combined.R, "r")`. -/
theorem c1_witness :
    parseStep initState 'r' = {
      char_store := "", channel_selector := "",
      channel_names := initState.channel_names ++ [mapChar "" 'r'],
      channel_keys := initState.channel_keys ++ [String.singleton 'r'] } :=
  (c1_theorem initState 'r' (by decide)).1 rfl

/-- C1 counterexample: in `"rq"` the code `r` is followed by one more
character, and exactly one pair is emitted for it — but its key is `"r"`
itself, not the following character `"q"` as the claim states. -/
theorem c1_counterexample :
    _parse_channel_string "VL" "rq" = (["VL.Combined.R"], ["r"]) ∧
    (_parse_channel_string "VL" "rq").2 ≠ ["q"] := by decide

/-- C2 (amended): `parse("rgb", "VL")` returns all three layer paths
`["VL.Combined.R", "VL.Combined.G", "VL.Combined.B"]` with keys
`["r", "g", "b"]`: every code of the all-single-code string resolves in its
own iteration, and no trailing code is dropped. -/
theorem c2_theorem :
    _parse_channel_string "VL" "rgb" =
      (["VL.Combined.R", "VL.Combined.G", "VL.Combined.B"], ["r", "g", "b"]) := by decide

/-- C2 counterexample: `parse("rgb", "VL")` does not return the value the
claim states (two paths with keys `["r", "g"]` and the trailing `b`
dropped). -/
theorem c2_counterexample :
    _parse_channel_string "VL" "rgb" ≠ (["VL.Combined.G", "VL.Combined.B"], ["r", "g"]) := by
  decide

/-- C3 (code bug): with the short key `"r"` already present in the target
mapping, re-invoking `_load_channels` with the pair
`("VL.Combined.R", "r")` still performs one read.  Line 193 filters the
layer NAMES against `self.channels`, but `self.channels` is keyed by the
short KEYS (line 200/202), so the filter never removes anything and the
read-call list is non-empty — contradicting the code's own comment
"Only load channels that are not loaded yet". -/
theorem c3_theorem :
    dictMember [("r", (0 : Nat))] "r" = true ∧
    (_load_channels [("r", (0 : Nat))] (fun names => names.map (fun _ => (0 : Nat)))
      ["VL.Combined.R"] ["r"]).2 = [["VL.Combined.R"]] := by decide

/-- C4 (amended): a two-character-expression start (`n` or `f`) standing at
the very end of the channel string is silently dropped (the output equals
the output without it, and no error is raised), and a start character
overwrites any pending state without emitting anything — so a start
immediately followed by another start is silently dropped as well.  A start
followed by any non-start character, however, does emit a pair (see C9), so
the claim's "not followed by a suffix" condition is too broad. -/
theorem c4_theorem (vln s : String) (p : Char) (hp : p = 'n' ∨ p = 'f') :
    _parse_channel_string vln (s.push p) = _parse_channel_string vln s ∧
    (∀ st : ParseState, parseStep st p =
      { st with channel_selector := mapChar "" p, char_store := String.singleton p }) := by
  constructor
  · unfold _parse_channel_string parseChars
    rw [toList_push, parseLoop_append,
      show parseLoop (parseLoop initState s.toList) [p]
        = parseStep (parseLoop initState s.toList) p from rfl,
      parseStep_twoCharStart _ p hp]
  · exact fun st => parseStep_twoCharStart st p hp

/-- C4 witness: `"rn"` parses exactly like `"r"` (the trailing `n` is
dropped), and `n` read from the initial state emits nothing. -/
theorem c4_witness :
    _parse_channel_string "VL" (String.push "r" 'n') = _parse_channel_string "VL" "r" ∧
    parseStep initState 'n' =
      { initState with channel_selector := mapChar "" 'n', char_store := String.singleton 'n' } :=
  ⟨( c4_theorem "VL" "r" 'n' (Or.inl rfl)).1, ( c4_theorem "VL" "r" 'n' (Or.inl rfl)).2 initState⟩

/-- C4 counterexample: in `"nq"` the character `n` is never followed by a
suffix character from `{x,y,z,w}`, yet it is not silently dropped: the
parser emits the pair `("VL.Normal", "nq")` for it. -/
theorem c4_counterexample :
    _parse_channel_string "VL" "nq" = (["VL.Normal"], ["nq"]) ∧
    (_parse_channel_string "VL" "nq").2 ≠ [] := by decide

/-- C5 (amended): a character outside the code alphabet is silently ignored
— inserting it changes nothing and raises no error — only at positions
where no two-character expression is pending.  When `char_store` is
non-empty, the unrecognized character instead completes the pending
two-character expression, emitting the pending selector with key
`char_store + char`. -/
theorem c5_theorem (vln : String) (l r : List Char) (c : Char)
    (h : c ∉ ['c', 'i', 'r', 'g', 'b', 'a', 'd', 'n', 'f', 'x', 'y', 'z', 'w']) :
    ((parseLoop initState l).char_store = "" →
      parseChars vln (l ++ c :: r) = parseChars vln (l ++ r)) ∧
    (∀ st : ParseState, st.char_store ≠ "" →
      parseStep st c = {
        char_store := "", channel_selector := "",
        channel_names := st.channel_names ++ [st.channel_selector],
        channel_keys := st.channel_keys ++ [st.char_store ++ String.singleton c] }) := by
  simp only [List.mem_cons, List.mem_singleton, not_or] at h
  obtain ⟨hc, hi, hr, hg, hb, ha, hd, hn, hf, hx, hy, hz, hw⟩ := h
  constructor
  · intro hst
    have hsel := parseLoop_inv l hst
    have hnoop : parseStep (parseLoop initState l) c = parseLoop initState l := by
      cases hpl : parseLoop initState l with
      | mk a b ns ks =>
        rw [hpl] at hst hsel
        simp only at hst hsel
        subst hst
        subst hsel
        simp [parseStep, mapChar, hc, hi, hr, hg, hb, ha, hd, hn, hf]
    have hloop : parseLoop initState (l ++ c :: r) = parseLoop initState (l ++ r) := by
      rw [parseLoop_append, parseLoop_append, parseLoop_cons, hnoop]
    simp [parseChars, hloop]
  · intro st h1
    cases st with
    | mk a b ns ks =>
      simp only at h1
      simp [parseStep, mapChar, suffixAppend, hc, hi, hr, hg, hb, ha, hd, hn, hf,
        hx, hy, hz, hw, h1]

/-- C5 witness: inserting `q` into `"rg"` after the `r` changes nothing, and
`q` read while `f` is pending completes the pending expression. -/
theorem c5_witness :
    parseChars "VL" (['r'] ++ 'q' :: ['g']) = parseChars "VL" (['r'] ++ ['g']) ∧
    parseStep ⟨"f", ".Vector", [], []⟩ 'q' =
      ⟨"", "", [] ++ [".Vector"], [] ++ ["f" ++ String.singleton 'q']⟩ :=
  ⟨( c5_theorem "VL" ['r'] ['g'] 'q' (by decide)).1 (by decide),
   ( c5_theorem "VL" ['r'] ['g'] 'q' (by decide)).2 ⟨"f", ".Vector", [], []⟩ (by decide)⟩

/-- C5 counterexample: `q` is outside the code alphabet, yet in `"fq"` it is
not ignored — it completes the pending `f` expression and contributes to the
emitted pair `("VL.Vector", "fq")`. -/
theorem c5_counterexample :
    _parse_channel_string "VL" "fq" = (["VL.Vector"], ["fq"]) ∧
    _parse_channel_string "VL" "fq" ≠ (([], []) : List String × List String) := by decide

/-- C6: `parse("nx", "VL")` yields `(["VL.Normal.X"], ["nx"])` and
`parse("nxny", "VL")` yields `(["VL.Normal.X", "VL.Normal.Y"], ["nx", "ny"])`;
in general a two-character code — a start in `{n,f}` followed by a suffix in
`{x,y,z,w}` — emits from any state exactly one pair whose key is the two
source characters and whose path appends the suffix component to the
start's layer group. -/
theorem c6_theorem :
    _parse_channel_string "VL" "nx" = (["VL.Normal.X"], ["nx"]) ∧
    _parse_channel_string "VL" "nxny" = (["VL.Normal.X", "VL.Normal.Y"], ["nx", "ny"]) ∧
    ∀ (st : ParseState) (p s : Char), (p = 'n' ∨ p = 'f') →
      (s = 'x' ∨ s = 'y' ∨ s = 'z' ∨ s = 'w') →
      parseLoop st [p, s] = {
        char_store := "", channel_selector := "",
        channel_names := st.channel_names ++ [suffixAppend (mapChar "" p) s],
        channel_keys := st.channel_keys ++ [String.singleton p ++ String.singleton s] } := by
  refine ⟨by decide, by decide, ?_⟩
  intro st p s hp hs
  rcases hp with h | h <;> subst h <;> rcases hs with h | h | h | h <;> subst h <;>
    simp [parseLoop, parseStep, mapChar, suffixAppend, singleton_ne_empty]

/-- C6 witness: the two-character code `nx` from the initial state emits
exactly the pair `(.Normal.X, "nx")`. -/
theorem c6_witness :
    parseLoop initState ['n', 'x'] = {
      char_store := "", channel_selector := "",
      channel_names := initState.channel_names ++ [suffixAppend (mapChar "" 'n') 'x'],
      channel_keys := initState.channel_keys ++ [String.singleton 'n' ++ String.singleton 'x'] } :=
  c6_theorem.2.2 initState 'n' 'x' (Or.inl rfl) (Or.inl rfl)

/-- C7: `__exit__` closes the file handle on both exit kinds of the session
scope (normal return and error propagation), and closing the handle again
after a direct close is harmless — the close primitive is total (it never
raises) and idempotent.  The `with`-statement dispatch and the close
primitive itself are external to the repository and are modelled from the
spec (§5, §6). -/
theorem c7_theorem (f : InputFile) (body : Except String Unit) (exc : Option String) :
    ((runSession f body).2).closed = true ∧
    exitScope (InputFile.close f) exc = InputFile.close f := by
  constructor
  · cases body <;> rfl
  · rfl

/-- C8: the constructor defaults are `resolution = (1080, 1920)`,
`view_layer_name = "BAT_ViewLayer"` (and `loader = None`), and every layer
path the parser emits is the caller-supplied view-layer name followed by a
collected selector. -/
theorem c8_theorem (p s : String) :
    ({ filepath := p, channel_string := s } : OpenEXRReader).resolution = (1080, 1920) ∧
    ({ filepath := p, channel_string := s } : OpenEXRReader).view_layer_name = "BAT_ViewLayer" ∧
    ({ filepath := p, channel_string := s } : OpenEXRReader).loader = none ∧
    ∀ (vln cs name : String), name ∈ (_parse_channel_string vln cs).1 →
      ∃ sel, sel ∈ (parseLoop initState cs.toList).channel_names ∧ name = vln ++ sel := by
  refine ⟨rfl, rfl, rfl, ?_⟩
  intro vln cs name hmem
  unfold _parse_channel_string parseChars at hmem
  simp only [List.mem_map] at hmem
  obtain ⟨sel, hsel, heq⟩ := hmem
  exact ⟨sel, hsel, heq.symm⟩

/-- C8 witness: a reader built from only `filepath` and `channel_string`
gets the default resolution, and the path `"VL.Combined.R"` emitted for
`parse("r", "VL")` splits as the view-layer name plus a selector. -/
theorem c8_witness :
    ({ filepath := "a", channel_string := "r" } : OpenEXRReader).resolution = (1080, 1920) ∧
    ∃ sel, sel ∈ (parseLoop initState "r".toList).channel_names ∧
      "VL.Combined.R" = "VL" ++ sel :=
  ⟨( c8_theorem "a" "r").1, ( c8_theorem "a" "r").2.2.2 "VL" "r" "VL.Combined.R" (by decide)⟩

/-- C9: a pending start character `p ∈ {n,f}` followed by a character that
is neither a suffix in `{x,y,z,w}` nor another start still emits exactly one
pair with key `p + c`; the path is the follower's own selector when the
follower is a single-character code (`parse("nr", "VL")` emits
`("VL.Combined.R", "nr")`) and the bare layer group when the follower is
unrecognized (`parse("nq", "VL")` emits `("VL.Normal", "nq")`). -/
theorem c9_theorem :
    _parse_channel_string "VL" "nr" = (["VL.Combined.R"], ["nr"]) ∧
    _parse_channel_string "VL" "nq" = (["VL.Normal"], ["nq"]) ∧
    ∀ (st : ParseState) (p c : Char), (p = 'n' ∨ p = 'f') →
      ¬(c = 'x' ∨ c = 'y' ∨ c = 'z' ∨ c = 'w') → ¬(c = 'n' ∨ c = 'f') →
      parseLoop st [p, c] = {
        char_store := "", channel_selector := "",
        channel_names := st.channel_names ++ [mapChar (mapChar "" p) c],
        channel_keys := st.channel_keys ++ [String.singleton p ++ String.singleton c] } := by
  refine ⟨by decide, by decide, ?_⟩
  intro st p c hp hs hpc
  push_neg at hs hpc
  obtain ⟨hx, hy, hz, hw⟩ := hs
  obtain ⟨hn, hf⟩ := hpc
  rcases hp with h | h <;> subst h <;>
    simp [parseLoop, parseStep, mapChar, suffixAppend, singleton_ne_empty,
      hx, hy, hz, hw, hn, hf]

/-- C9 witness: `n` followed by the single-character code `r` emits exactly
the pair `(.Combined.R, "nr")`. -/
theorem c9_witness :
    parseLoop initState ['n', 'r'] = {
      char_store := "", channel_selector := "",
      channel_names := initState.channel_names ++ [mapChar (mapChar "" 'n') 'r'],
      channel_keys := initState.channel_keys ++ [String.singleton 'n' ++ String.singleton 'r'] } :=
  c9_theorem.2.2 initState 'n' 'r' (Or.inl rfl) (by decide) (by decide)

/-- C10: for every channel string and view-layer name the parser returns
lists of equal length, and each loop iteration appends to the name list and
the key list in lockstep (either neither grows or both grow by exactly one
element), so each (path, key) pair at an index comes from one emission
step. -/
theorem c10_theorem (vln cs : String) :
    (_parse_channel_string vln cs).1.length = (_parse_channel_string vln cs).2.length ∧
    ∀ (st : ParseState) (c : Char),
      ((parseStep st c).channel_names = st.channel_names ∧
       (parseStep st c).channel_keys = st.channel_keys) ∨
      (∃ n k, (parseStep st c).channel_names = st.channel_names ++ [n] ∧
              (parseStep st c).channel_keys = st.channel_keys ++ [k]) := by
  constructor
  · unfold _parse_channel_string parseChars
    simp only [List.length_map]
    exact parseLoop_length cs.toList initState rfl
  · exact fun st c => parseStep_emits st c

end ExrReader
